import Mathlib

/-!
Verification of the stream-selection-and-merge pipeline of `app.py`
(a Flask service that resolves separate video/audio streams for a
video-page URL, downloads both, merges them with an external tool, and
cleans old files periodically).

Strings are modelled as `List Char`.  Python `dict.get` on descriptor
fields is modelled with `Option` (`none` covers both a missing key and a
key bound to Python `None`, which `dict.get` makes indistinguishable).
External effects (the provider downloads, the merge tool, the
filesystem) are modelled by an environment record of their outcomes plus
an explicit event trace.
-/

/-! ## Configuration (`app.config` in `app.py`) -/

/-- Config entry `app.config['DOWNLOAD_FOLDER'] = 'downloads'`: final output directory. -/
def DOWNLOAD_FOLDER : List Char := ['d', 'o', 'w', 'n', 'l', 'o', 'a', 'd', 's']

/-- Config entry `app.config['TEMP_FOLDER'] = 'temp'`: temporary stream directory. -/
def TEMP_FOLDER : List Char := ['t', 'e', 'm', 'p']

/-- Config entry `app.config['MAX_FILE_AGE'] = 3600`: janitor retention threshold in seconds. -/
def MAX_FILE_AGE : Int := 3600

/-- Config entry `app.config['AUDIO_PREFERRED_ASR'] = 48000`: preferred audio sample rate. -/
def AUDIO_PREFERRED_ASR : Nat := 48000

/-- Model of `os.path.join dir fname` for the simple two-component joins used in `app.py`. -/
def pathJoin (dir fname : List Char) : List Char := dir ++ '/' :: fname

/-! ## `sanitize_filename` (app.py lines 70-79) -/

/-- The characters removed by `re.sub(r'[\\/*?:"<>|]', "", title)`. -/
def illegalChars : List Char := ['\\', '/', '*', '?', ':', '\"', '<', '>', '|']

/-- Membership in the illegal-character set of `sanitize_filename`. -/
def isIllegalChar (c : Char) : Bool := illegalChars.contains c

/-- Python `str.strip()`: drop leading and trailing whitespace. -/
def pyStrip (l : List Char) : List Char :=
  ((l.dropWhile Char.isWhitespace).reverse.dropWhile Char.isWhitespace).reverse

/-- Function `sanitize_filename`: remove the Windows-illegal characters
`\ / : * ? " < > |`, then strip surrounding whitespace
(`re.sub(illegal_char_pattern, "", title).strip()`). -/
def sanitize_filename (title : List Char) : List Char :=
  pyStrip (title.filter (fun c => !(isIllegalChar c)))

/-! ## Stream descriptors (yt-dlp `formats` entries, as used by app.py) -/

/-- The fields of a provider-returned format dict that `index` reads.
`Option` fields model `dict.get`: `none` is a missing key or a key whose
value is Python `None`. -/
structure Fmt where
  format_id : Nat
  vcodec : Option (List Char)
  acodec : Option (List Char)
  height : Option Nat
  asr : Option Nat
  ext : List Char
deriving DecidableEq

/-- The string `'none'` that yt-dlp stores in the codec field of a track
that lacks that medium. -/
def codecNone : List Char := ['n', 'o', 'n', 'e']

/-- Test `fmt.get('vcodec') != 'none'`: the has-video-codec test of the
video filter (app.py line 220). -/
def hasVideoCodec (fmt : Fmt) : Bool := fmt.vcodec != some codecNone

/-- Test `fmt.get('acodec') == 'none'`: the no-audio-codec test of the
video filter (app.py line 220). -/
def noAudioCodec (fmt : Fmt) : Bool := fmt.acodec == some codecNone

/-- Test `fmt.get('acodec') != 'none'`: the has-audio-codec test of the
audio filter (app.py line 224). -/
def hasAudioCodec (fmt : Fmt) : Bool := fmt.acodec != some codecNone

/-- Test `fmt.get('vcodec') == 'none'`: the no-video-codec test of the
audio filter (app.py line 224). -/
def noVideoCodec (fmt : Fmt) : Bool := fmt.vcodec == some codecNone

/-- Membership predicate of `pure_video_formats`
(`fmt.get('vcodec') != 'none' and fmt.get('acodec') == 'none'`). -/
def isPureVideo (fmt : Fmt) : Bool := hasVideoCodec fmt && noAudioCodec fmt

/-- Membership predicate of `pure_audio_formats`
(`fmt.get('acodec') != 'none' and fmt.get('vcodec') == 'none'`). -/
def isPureAudio (fmt : Fmt) : Bool := hasAudioCodec fmt && noVideoCodec fmt

/-- Key `x.get('height', 0)`: the sort key of the video `max(...)` call. -/
def heightKey (fmt : Fmt) : Nat := fmt.height.getD 0

/-- Key `x.get('asr', 0)`: the sort key of the audio `max(...)` call and the
left side of the threshold test. -/
def asrKey (fmt : Fmt) : Nat := fmt.asr.getD 0

/-- Python `max(acc :: rest, key=key)`: fold from the left, replacing the
running maximum only on a strictly greater key, so the first maximal
element wins. -/
def pyMax (key : Fmt → Nat) : Fmt → List Fmt → Fmt
  | acc, [] => acc
  | acc, x :: xs => pyMax key (if key acc < key x then x else acc) xs

/-- Selection `selected_video_format` (app.py lines 232-235):
`next((fmt for fmt in pure_video_formats if fmt.get('height') == 1080),
max(pure_video_formats, key=lambda x: x.get('height', 0)))`.
`none` only when the list is empty (the code guards that case earlier). -/
def select_video_format : List Fmt → Option Fmt
  | [] => none
  | f :: fs =>
    some (((f :: fs).find? (fun g => g.height == some 1080)).getD
      (pyMax heightKey f fs))

/-- Selection `selected_audio_format` (app.py lines 238-241):
`next((fmt for fmt in pure_audio_formats if fmt.get('asr', 0) >= 48000),
max(pure_audio_formats, key=lambda x: x.get('asr', 0)))`. -/
def select_audio_format : List Fmt → Option Fmt
  | [] => none
  | f :: fs =>
    some (((f :: fs).find? (fun g => decide (AUDIO_PREFERRED_ASR ≤ asrKey g))).getD
      (pyMax asrKey f fs))

/-- Maximum of a key over a list, 0 on the empty list. -/
def maxKey (key : Fmt → Nat) : List Fmt → Nat
  | [] => 0
  | x :: xs => Nat.max (key x) (maxKey key xs)

/-- Modelled from the spec's words (§4.4), for comparison with
`select_video_format`: "prefer the first descriptor (in provider-returned
order) with height exactly 1080; if none has height 1080, pick the
descriptor with the maximum height (ties broken by provider order — first
maximum wins)", missing height treated as 0. -/
def spec_select_video (pv : List Fmt) : Option Fmt :=
  match pv.find? (fun f => heightKey f == 1080) with
  | some f => some f
  | none => pv.find? (fun f => heightKey f == maxKey heightKey pv)

/-- Modelled from the spec's words (§4.4), for comparison with
`select_audio_format`: "prefer the first descriptor with sample rate ≥ a
configured preferred threshold (48000 Hz default); if none qualifies,
pick the descriptor with the maximum sample rate (same first-max
tie-break)". -/
def spec_select_audio (pa : List Fmt) : Option Fmt :=
  match pa.find? (fun f => decide (AUDIO_PREFERRED_ASR ≤ asrKey f)) with
  | some f => some f
  | none => pa.find? (fun f => asrKey f == maxKey asrKey pa)

/-! ## `merge_audio_video` (app.py lines 121-170) -/

/-- The world `merge_audio_video` observes: which paths exist on disk
(`os.path.exists`) and the exit status the external `ffmpeg` process
would return if invoked. -/
structure MergeWorld where
  onDisk : List Char → Bool
  ffmpegExit : Nat

/-- Model of `merge_audio_video video_path audio_path output_path`, returning the
boolean result of the Python function together with the number of times
the external tool was invoked.  Mirrors the source: missing video input
returns `False` at once, then missing audio input returns `False` at
once, otherwise the tool runs once and the result is
`returncode == 0`. -/
def merge_audio_video (w : MergeWorld) (video_path audio_path _output_path : List Char) :
    Bool × Nat :=
  if w.onDisk video_path = false then (false, 0)
  else if w.onDisk audio_path = false then (false, 0)
  else (w.ffmpegExit == 0, 1)

/-! ## `clean_old_files` (app.py lines 29-52), one cycle of the loop -/

/-- One directory entry as the janitor sees it: `isFile` is
`os.path.isfile`, `age` is `current_time - os.path.getctime` at the start
of the cycle, `removeFails` says whether `os.remove` would raise. -/
structure DirEntry where
  name : List Char
  isFile : Bool
  age : Int
  removeFails : Bool
deriving DecidableEq

/-- The per-directory file loop of one janitor cycle.  Returns the files
still on disk afterwards and whether an `os.remove` raised.  The `try`
in the source wraps the whole cycle, so a raise stops processing: the
failing file and every later file survive. -/
def cleanFolderFiles (threshold : Int) : List DirEntry → List DirEntry × Bool
  | [] => ([], false)
  | f :: fs =>
    if f.isFile = true ∧ threshold < f.age then
      if f.removeFails = true then (f :: fs, true)
      else cleanFolderFiles threshold fs
    else
      let r := cleanFolderFiles threshold fs
      (f :: r.1, r.2)

/-- One cycle of `clean_old_files` over the configured directory list
(`[DOWNLOAD_FOLDER, TEMP_FOLDER]` in the source).  Each directory is
`none` when `os.path.exists` is false (skipped by the `continue`) or
`some files` with its listing.  A raise inside a directory aborts the
remainder of the cycle (the single `except` is outside both loops); the
function still returns, mirroring the loop surviving to the next
cycle. -/
def clean_old_files_cycle (threshold : Int) :
    List (Option (List DirEntry)) → List (Option (List DirEntry))
  | [] => []
  | none :: ds => none :: clean_old_files_cycle threshold ds
  | some fs :: ds =>
    let r := cleanFolderFiles threshold fs
    if r.2 = true then some r.1 :: ds
    else some r.1 :: clean_old_files_cycle threshold ds

/-! ## The POST branch of `index` (app.py lines 194-303) -/

/-- What `ydl.extract_info(video_url, download=False)` returned:
`title?` is the `'title'` entry (`none` if absent, in which case the code
falls back to `f'video_{timestamp}'`), `formats` the `'formats'` list,
`thumbnail_url` the `'thumbnail'` entry (`[]` if absent). -/
structure ResolvedInfo where
  title? : Option (List Char)
  formats : List Fmt
  thumbnail_url : List Char
deriving DecidableEq

/-- The outcomes of the external steps of one run: `info` is `none` when
`extract_info` raises; the booleans and the exit status give the
outcomes of the thumbnail fetch, the two `ydl.download` calls and the
`ffmpeg` subprocess. -/
structure JobEnv where
  info : Option ResolvedInfo
  timestamp : List Char
  thumbnailOk : Bool
  videoDownloadOk : Bool
  audioDownloadOk : Bool
  ffmpegExit : Nat
deriving DecidableEq

/-- The error outcomes of one run, one per failing stage of the POST
branch (every one surfaces as an error template render). -/
inductive JobErr where
  | resolutionFailed
  | noStream
  | downloadFailed
  | mergeFailed
deriving DecidableEq

/-- Filesystem events of one run, in program order. -/
inductive Ev where
  | created (p : List Char)
  | removed (p : List Char)
  | mergeToolInvoked
deriving DecidableEq

/-- Derivation `video_title` (app.py line 203):
`sanitize_filename(video_info.get('title', f'video_{timestamp}'))`.
The fallback placeholder is used only when the `'title'` key is absent,
and it too passes through the sanitizer. -/
def video_title_of (info : ResolvedInfo) (ts : List Char) : List Char :=
  sanitize_filename (info.title?.getD (['v', 'i', 'd', 'e', 'o', '_'] ++ ts))

/-- Derivation `filename_prefix` (app.py line 210): `f"{video_title}_{timestamp}"`. -/
def filename_prefix_of (info : ResolvedInfo) (ts : List Char) : List Char :=
  video_title_of info ts ++ '_' :: ts

/-- The final output filename `f"{filename_prefix}.mp4"` (app.py line 252). -/
def final_video_filename_of (info : ResolvedInfo) (ts : List Char) : List Char :=
  filename_prefix_of info ts ++ ['.', 'm', 'p', '4']

/-- Path `final_video_path` (app.py line 253). -/
def final_video_path_of (info : ResolvedInfo) (ts : List Char) : List Char :=
  pathJoin DOWNLOAD_FOLDER (final_video_filename_of info ts)

/-- The thumbnail path `downloads/{filename_prefix}_thumb.jpg`
(app.py line 92-93). -/
def thumb_path_of (info : ResolvedInfo) (ts : List Char) : List Char :=
  pathJoin DOWNLOAD_FOLDER
    (filename_prefix_of info ts ++ ['_', 't', 'h', 'u', 'm', 'b', '.', 'j', 'p', 'g'])

/-- Path `temp_video_path` (app.py lines 244-247):
`temp/{filename_prefix}_video.{ext}` for the selected video format. -/
def temp_video_path_for (stem ext : List Char) : List Char :=
  pathJoin TEMP_FOLDER (stem ++ ['_', 'v', 'i', 'd', 'e', 'o', '.'] ++ ext)

/-- Path `temp_audio_path` (app.py lines 248-251):
`temp/{filename_prefix}_audio.{ext}` for the selected audio format. -/
def temp_audio_path_for (stem ext : List Char) : List Char :=
  pathJoin TEMP_FOLDER (stem ++ ['_', 'a', 'u', 'd', 'i', 'o', '.'] ++ ext)

/-- The POST branch of `index` after URL validation (app.py lines
194-303), as a function from the run's external outcomes to the run's
result and its filesystem event trace.  Mirrors the source order:
resolve, derive title and filename stem, best-effort thumbnail, filter
and select streams (failing with the no-usable-stream error when either
filtered list is empty), download video then audio, merge (the external
tool writes its output at `final_video_path` and then exits), and only
after a zero exit status remove the two temp files. -/
def index (env : JobEnv) : Except JobErr (List Char) × List Ev :=
  match env.info with
  | none => (.error .resolutionFailed, [])
  | some info =>
    let stem := filename_prefix_of info env.timestamp
    let thumbEvs : List Ev :=
      if info.thumbnail_url ≠ [] ∧ env.thumbnailOk = true then
        [.created (thumb_path_of info env.timestamp)]
      else []
    let pure_video_formats := info.formats.filter isPureVideo
    let pure_audio_formats := info.formats.filter isPureAudio
    match select_video_format pure_video_formats,
        select_audio_format pure_audio_formats with
    | some vf, some af =>
      let temp_video_path := temp_video_path_for stem vf.ext
      let temp_audio_path := temp_audio_path_for stem af.ext
      let final_video_path := final_video_path_of info env.timestamp
      if env.videoDownloadOk = false then (.error .downloadFailed, thumbEvs)
      else if env.audioDownloadOk = false then
        (.error .downloadFailed, thumbEvs ++ [.created temp_video_path])
      else
        let mergeEvs := thumbEvs ++
          [.created temp_video_path, .created temp_audio_path,
            .mergeToolInvoked, .created final_video_path]
        if env.ffmpegExit ≠ 0 then (.error .mergeFailed, mergeEvs)
        else
          (.ok (final_video_filename_of info env.timestamp),
            mergeEvs ++ [.removed temp_video_path, .removed temp_audio_path])
    | _, _ => (.error .noStream, thumbEvs)

/-! ## Concrete fixtures used by witnesses and counterexamples -/

/-- A run whose provider returns no formats at all, and one whose two
descriptors are video-only tracks of heights 720 and 1440. -/
def envNoFormats : JobEnv :=
  { info := some ⟨none, [], []⟩, timestamp := [], thumbnailOk := false,
    videoDownloadOk := true, audioDownloadOk := true, ffmpegExit := 0 }

def fmt720 : Fmt := ⟨1, some ['h'], some codecNone, some 720, none, ['m', 'p', '4']⟩

def fmt1440 : Fmt := ⟨2, some ['h'], some codecNone, some 1440, none, ['m', 'p', '4']⟩

def envTwoVideo : JobEnv :=
  { info := some ⟨none, [fmt720, fmt1440], []⟩, timestamp := [],
    thumbnailOk := false, videoDownloadOk := true, audioDownloadOk := true,
    ffmpegExit := 0 }

def fmt44k : Fmt := ⟨3, some codecNone, some ['o'], none, some 44100, ['m', '4', 'a']⟩

def fmt48k : Fmt := ⟨4, some codecNone, some ['o'], none, some 48000, ['m', '4', 'a']⟩

def envTwoAudio : JobEnv :=
  { info := some ⟨none, [fmt44k, fmt48k], []⟩, timestamp := [],
    thumbnailOk := false, videoDownloadOk := true, audioDownloadOk := true,
    ffmpegExit := 0 }

/-- An over-age regular file whose `os.remove` raises. -/
def jOldFailing : DirEntry := ⟨['a'], true, 4000, true⟩

/-- An over-age regular file whose `os.remove` would succeed. -/
def jOldOk : DirEntry := ⟨['b'], true, 4000, false⟩

/-- A regular file younger than the retention threshold. -/
def jYoung : DirEntry := ⟨['c'], true, 100, false⟩

/-- A timestamp string used in the concrete runs below
(`datetime.now().strftime("%Y%m%d%H%M%S")` has second granularity). -/
def ts0 : List Char :=
  ['2', '0', '2', '4', '0', '1', '0', '1', '1', '2', '0', '0', '0', '0']

/-- Metadata whose title is present but consists only of illegal
characters. -/
def infoAllIllegal : ResolvedInfo := ⟨some ['?', '?', '?'], [], []⟩

/-- Metadata for two concurrent runs of the same source URL: title
`"a"`, one video-only and one audio-only descriptor. -/
def cexInfo : ResolvedInfo := ⟨some ['a'], [fmt720, fmt44k], []⟩

/-- A run submitted at second `ts0` whose merge succeeds. -/
def runA : JobEnv :=
  { info := some cexInfo, timestamp := ts0, thumbnailOk := false,
    videoDownloadOk := true, audioDownloadOk := true, ffmpegExit := 0 }

/-- A second, distinct run for the identical URL submitted in the same
second (same resolved metadata, same `strftime("%Y%m%d%H%M%S")` value),
whose merge happens to fail. -/
def runB : JobEnv :=
  { info := some cexInfo, timestamp := ts0, thumbnailOk := false,
    videoDownloadOk := true, audioDownloadOk := true, ffmpegExit := 1 }

/-! ## Helper lemmas -/

/-- Bound: `key acc` is bounded by the maximum over `acc :: l`. -/
theorem key_le_maxKey (key : Fmt → Nat) (acc : Fmt) (l : List Fmt) :
    key acc ≤ maxKey key (acc :: l) := by
  simp only [maxKey]
  exact Nat.le_max_left _ _

/-- Python's `max(acc :: l, key=key)` (strict-improvement fold) returns the
first element attaining the maximal key. -/
theorem find?_maxKey_pyMax (key : Fmt → Nat) (l : List Fmt) :
    ∀ acc : Fmt,
      (acc :: l).find? (fun x => key x == maxKey key (acc :: l)) =
        some (pyMax key acc l) := by
  induction l with
  | nil =>
    intro acc
    have h : maxKey key [acc] = key acc := by simp [maxKey]
    rw [h]
    rw [List.find?_cons_of_pos _ (by simp)]
    rfl
  | cons x xs ih =>
    intro acc
    by_cases h : key acc < key x
    · have hmax : maxKey key (acc :: x :: xs) = maxKey key (x :: xs) := by
        simp only [maxKey]
        exact Nat.max_eq_right (Nat.le_trans (Nat.le_of_lt h) (Nat.le_max_left _ _))
      have hpm : pyMax key acc (x :: xs) = pyMax key x xs := by simp [pyMax, h]
      rw [hpm, hmax]
      have hne : key acc ≠ maxKey key (x :: xs) :=
        Nat.ne_of_lt (Nat.lt_of_lt_of_le h (key_le_maxKey key x xs))
      rw [List.find?_cons_of_neg _ (by simp [hne])]
      exact ih x
    · have hxa : key x ≤ key acc := Nat.le_of_not_lt h
      have hmax : maxKey key (acc :: x :: xs) = maxKey key (acc :: xs) := by
        simp only [maxKey]
        rcases Nat.le_total (key x) (maxKey key xs) with hc | hc
        · have h1 : Nat.max (key x) (maxKey key xs) = maxKey key xs :=
            Nat.max_eq_right hc
          rw [h1]
        · have h1 : Nat.max (key x) (maxKey key xs) = key x := Nat.max_eq_left hc
          have h2 : Nat.max (key acc) (key x) = key acc := Nat.max_eq_left hxa
          have h3 : Nat.max (key acc) (maxKey key xs) = key acc :=
            Nat.max_eq_left (Nat.le_trans hc hxa)
          rw [h1, h2, h3]
      have hpm : pyMax key acc (x :: xs) = pyMax key acc xs := by simp [pyMax, h]
      rw [hpm, hmax]
      by_cases ha : key acc = maxKey key (acc :: xs)
      · rw [List.find?_cons_of_pos _ (by simp [ha])]
        have ih' := ih acc
        rw [List.find?_cons_of_pos _ (by simp [ha])] at ih'
        exact ih'
      · have hax : key x ≠ maxKey key (acc :: xs) := by
          intro hx
          exact ha (Nat.le_antisymm (key_le_maxKey key acc xs) (hx ▸ hxa))
        rw [List.find?_cons_of_neg _ (by simp [ha]),
          List.find?_cons_of_neg _ (by simp [hax])]
        have ih' := ih acc
        rw [List.find?_cons_of_neg _ (by simp [ha])] at ih'
        exact ih'

/-- The two phrasings of the 1080 test agree: `fmt.get('height') == 1080`
(missing key gives `None`, never equal to 1080) and "height exactly 1080,
missing height treated as 0". -/
theorem height_eq_1080_iff (g : Fmt) :
    (g.height == some 1080) = (heightKey g == 1080) := by
  cases hg : g.height with
  | none => simp [heightKey, hg]
  | some n => simp [heightKey, hg]

/-- The code's video selection equals the spec's policy, on every list. -/
theorem select_video_format_eq_spec (pv : List Fmt) :
    select_video_format pv = spec_select_video pv := by
  cases pv with
  | nil => rfl
  | cons f fs =>
    have hpred : (fun g : Fmt => g.height == some 1080) =
        (fun g : Fmt => heightKey g == 1080) := funext height_eq_1080_iff
    simp only [select_video_format, spec_select_video, hpred]
    cases hf : (f :: fs).find? (fun g => heightKey g == 1080) with
    | some g => simp
    | none =>
      simp only [Option.getD_none]
      exact (find?_maxKey_pyMax heightKey fs f).symm

/-- The code's audio selection equals the spec's policy, on every list. -/
theorem select_audio_format_eq_spec (pa : List Fmt) :
    select_audio_format pa = spec_select_audio pa := by
  cases pa with
  | nil => rfl
  | cons f fs =>
    simp only [select_audio_format, spec_select_audio]
    cases hf : (f :: fs).find? (fun g => decide (AUDIO_PREFERRED_ASR ≤ asrKey g)) with
    | some g => simp
    | none =>
      simp only [Option.getD_none]
      exact (find?_maxKey_pyMax asrKey fs f).symm

/-! ## Claim theorems -/

/-- C1: for every resolved descriptor list, if the video-only sublist is
empty the job fails with the no-usable-stream error instead of selecting;
otherwise (indeed on every list) the code's video selection agrees with
the spec's policy: the first descriptor with height exactly 1080 if one
exists, else the first descriptor attaining the maximum height (missing
height treated as 0). -/
theorem video_selection_confirms_spec (env : JobEnv) (info : ResolvedInfo)
    (h : env.info = some info) :
    (info.formats.filter isPureVideo = [] →
      (index env).1 = Except.error JobErr.noStream) ∧
    select_video_format (info.formats.filter isPureVideo) =
      spec_select_video (info.formats.filter isPureVideo) := by
  refine ⟨fun hempty => ?_, select_video_format_eq_spec _⟩
  cases haud : select_audio_format (info.formats.filter isPureAudio) <;>
    simp [index, h, hempty, select_video_format, haud]

theorem video_selection_confirms_spec_witness :
    (index envNoFormats).1 = Except.error JobErr.noStream ∧
    select_video_format [fmt720, fmt1440] = spec_select_video [fmt720, fmt1440] :=
  ⟨(video_selection_confirms_spec envNoFormats ⟨none, [], []⟩ rfl).1 rfl,
    by
      have h := (video_selection_confirms_spec envTwoVideo
        ⟨none, [fmt720, fmt1440], []⟩ rfl).2
      have hf : (⟨none, [fmt720, fmt1440], []⟩ : ResolvedInfo).formats.filter
          isPureVideo = [fmt720, fmt1440] := by decide
      rwa [hf] at h⟩

/-- C2: for every resolved descriptor list, if the audio-only sublist is
empty the job fails with the no-usable-stream error instead of selecting;
otherwise (indeed on every list) the code's audio selection agrees with
the spec's policy: the first descriptor with sample rate at least the
configured threshold (48000 Hz), else the first descriptor attaining the
maximum sample rate (missing rate treated as 0). -/
theorem audio_selection_confirms_spec (env : JobEnv) (info : ResolvedInfo)
    (h : env.info = some info) :
    (info.formats.filter isPureAudio = [] →
      (index env).1 = Except.error JobErr.noStream) ∧
    select_audio_format (info.formats.filter isPureAudio) =
      spec_select_audio (info.formats.filter isPureAudio) := by
  refine ⟨fun hempty => ?_, select_audio_format_eq_spec _⟩
  cases hvid : select_video_format (info.formats.filter isPureVideo) <;>
    simp [index, h, hempty, select_audio_format, hvid]

theorem audio_selection_confirms_spec_witness :
    (index envNoFormats).1 = Except.error JobErr.noStream ∧
    select_audio_format [fmt44k, fmt48k] = spec_select_audio [fmt44k, fmt48k] :=
  ⟨(audio_selection_confirms_spec envNoFormats ⟨none, [], []⟩ rfl).1 rfl,
    by
      have h := (audio_selection_confirms_spec envTwoAudio
        ⟨none, [fmt44k, fmt48k], []⟩ rfl).2
      have hf : (⟨none, [fmt44k, fmt48k], []⟩ : ResolvedInfo).formats.filter
          isPureAudio = [fmt44k, fmt48k] := by decide
      rwa [hf] at h⟩

/-- C9: the codec filters compare against the exact string `'none'`.
A descriptor whose `acodec` is missing (or `None`) fails the
no-audio-codec test and is never video-only, whatever its `vcodec`; a
descriptor whose `vcodec` is missing passes the has-video-codec test, so
`acodec == 'none'` with no `vcodec` at all is classified video-only; and
symmetrically for the audio-only filter. -/
theorem codec_none_classification (idn : Nat) (v a : Option (List Char))
    (ht sr : Option Nat) (e : List Char) :
    isPureVideo ⟨idn, v, none, ht, sr, e⟩ = false ∧
    isPureVideo ⟨idn, none, some codecNone, ht, sr, e⟩ = true ∧
    isPureAudio ⟨idn, none, a, ht, sr, e⟩ = false ∧
    isPureAudio ⟨idn, some codecNone, none, ht, sr, e⟩ = true := by
  refine ⟨?_, ?_, ?_, ?_⟩ <;>
    simp [isPureVideo, isPureAudio, hasVideoCodec, noAudioCodec,
      hasAudioCodec, noVideoCodec]

/-- C6: `merge_audio_video` returns failure without invoking the external
tool when either input path is missing; when both exist it invokes the
tool exactly once and succeeds exactly when the exit status is zero. -/
theorem merge_precondition_and_invocation (w : MergeWorld) (v a o : List Char) :
    ((w.onDisk v = false ∨ w.onDisk a = false) →
      merge_audio_video w v a o = (false, 0)) ∧
    (w.onDisk v = true → w.onDisk a = true →
      (merge_audio_video w v a o).2 = 1 ∧
      ((merge_audio_video w v a o).1 = true ↔ w.ffmpegExit = 0)) := by
  constructor
  · rintro (hv | ha)
    · simp [merge_audio_video, hv]
    · cases hv' : w.onDisk v <;> simp [merge_audio_video, hv', ha]
  · intro hv ha
    simp [merge_audio_video, hv, ha]

theorem merge_precondition_and_invocation_witness :
    merge_audio_video ⟨fun _ => false, 0⟩ ['v'] ['a'] ['o'] = (false, 0) ∧
    (merge_audio_video ⟨fun _ => true, 0⟩ ['v'] ['a'] ['o']).2 = 1 :=
  ⟨(merge_precondition_and_invocation ⟨fun _ => false, 0⟩ ['v'] ['a'] ['o']).1
      (Or.inl rfl),
    ((merge_precondition_and_invocation ⟨fun _ => true, 0⟩ ['v'] ['a'] ['o']).2
      rfl rfl).1⟩

/-- The head of `dropWhile p l` never satisfies `p`. -/
theorem head?_dropWhile_not (p : Char → Bool) (l : List Char) :
    ((l.dropWhile p).head?.all fun c => !p c) = true := by
  induction l with
  | nil => rfl
  | cons x xs ih =>
    rw [List.dropWhile_cons]
    cases hx : p x with
    | true => simpa [hx] using ih
    | false => simp [hx]

/-- Identity: `dropWhile p` is the identity when the head already fails `p`. -/
theorem dropWhile_eq_self_of_head (p : Char → Bool) (l : List Char)
    (h : (l.head?.all fun c => !p c) = true) : l.dropWhile p = l := by
  cases l with
  | nil => rfl
  | cons x xs =>
    simp only [List.head?_cons, Option.all_some, Bool.not_eq_true'] at h
    rw [List.dropWhile_cons]
    simp [h]

/-- When `dropWhile` leaves anything, it leaves the original last element. -/
theorem getLast?_dropWhile (p : Char → Bool) (l : List Char)
    (h : l.dropWhile p ≠ []) : (l.dropWhile p).getLast? = l.getLast? := by
  conv_rhs => rw [← List.takeWhile_append_dropWhile p l]
  exact (List.getLast?_append_of_ne_nil _ h).symm

/-- The first character of `pyStrip l`, if any, is not whitespace. -/
theorem pyStrip_head (l : List Char) :
    ((pyStrip l).head?.all fun c => !c.isWhitespace) = true := by
  unfold pyStrip
  rw [List.head?_reverse]
  by_cases hne :
      (l.dropWhile Char.isWhitespace).reverse.dropWhile Char.isWhitespace = []
  · rw [hne]; rfl
  · rw [getLast?_dropWhile _ _ hne, List.getLast?_reverse]
    exact head?_dropWhile_not _ _

/-- The last character of `pyStrip l`, if any, is not whitespace. -/
theorem pyStrip_last (l : List Char) :
    ((pyStrip l).getLast?.all fun c => !c.isWhitespace) = true := by
  unfold pyStrip
  rw [List.getLast?_reverse]
  exact head?_dropWhile_not _ _

/-- Stripping a stripped string changes nothing. -/
theorem pyStrip_idem (l : List Char) : pyStrip (pyStrip l) = pyStrip l := by
  have h1 : (pyStrip l).dropWhile Char.isWhitespace = pyStrip l :=
    dropWhile_eq_self_of_head _ _ (pyStrip_head l)
  have h2 : (pyStrip l).reverse.dropWhile Char.isWhitespace = (pyStrip l).reverse := by
    apply dropWhile_eq_self_of_head
    rw [List.head?_reverse]
    exact pyStrip_last l
  show (((pyStrip l).dropWhile Char.isWhitespace).reverse.dropWhile
    Char.isWhitespace).reverse = pyStrip l
  rw [h1, h2, List.reverse_reverse]

/-- Membership: `pyStrip` only removes characters. -/
theorem mem_pyStrip (l : List Char) (c : Char) (h : c ∈ pyStrip l) : c ∈ l := by
  unfold pyStrip at h
  rw [List.mem_reverse] at h
  have h2 := (List.dropWhile_sublist Char.isWhitespace).subset h
  rw [List.mem_reverse] at h2
  exact (List.dropWhile_sublist Char.isWhitespace).subset h2

/-- Nothing in a sanitized string is an illegal character. -/
theorem mem_sanitize_not_illegal (s : List Char) (c : Char)
    (h : c ∈ sanitize_filename s) : isIllegalChar c = false := by
  unfold sanitize_filename at h
  have h2 := mem_pyStrip _ _ h
  rw [List.mem_filter] at h2
  simpa using h2.2

/-- C8: the sanitizer (a total function) is idempotent, its output
contains no character of the illegal set `\ / : * ? " < > |`, and its
output carries neither leading nor trailing whitespace. -/
theorem sanitize_filename_props (s : List Char) :
    sanitize_filename (sanitize_filename s) = sanitize_filename s ∧
    ((sanitize_filename s).all fun c => !(isIllegalChar c)) = true ∧
    ((sanitize_filename s).head?.all fun c => !c.isWhitespace) = true ∧
    ((sanitize_filename s).getLast?.all fun c => !c.isWhitespace) = true := by
  refine ⟨?_, ?_, pyStrip_head _, pyStrip_last _⟩
  · have hf : (sanitize_filename s).filter (fun c => !(isIllegalChar c)) =
        sanitize_filename s :=
      List.filter_eq_self.mpr (fun a ha => by
        simp [mem_sanitize_not_illegal s a ha])
    show pyStrip ((sanitize_filename s).filter fun c => !(isIllegalChar c)) =
      sanitize_filename s
    rw [hf]
    exact pyStrip_idem _
  · rw [List.all_eq_true]
    intro c hc
    simp [mem_sanitize_not_illegal s c hc]

/-! ## Janitor claims -/

/-- C7 counterexample: with the retention threshold 3600, a cycle whose
first file's delete raises leaves every later over-age file of the cycle
untouched — including `jOldOk`, a regular file over the threshold whose
own delete would succeed, and the whole second directory — because the
single `try` of `clean_old_files` wraps the entire cycle, not one file. -/
theorem janitor_error_aborts_cycle_cex :
    clean_old_files_cycle MAX_FILE_AGE
        [some [jOldFailing, jOldOk], some [jOldOk]] =
      [some [jOldFailing, jOldOk], some [jOldOk]] ∧
    jOldOk.isFile = true ∧ MAX_FILE_AGE < jOldOk.age ∧
    jOldOk.removeFails = false := by
  refine ⟨by decide, by decide, by decide, by decide⟩

/-- When no delete in a folder raises, the folder loop deletes exactly
the regular files over the threshold. -/
theorem cleanFolderFiles_no_error (threshold : Int) (fs : List DirEntry)
    (h : ∀ f ∈ fs, f.isFile = true → threshold < f.age → f.removeFails = false) :
    cleanFolderFiles threshold fs =
      (fs.filter (fun f => !(f.isFile && decide (threshold < f.age))), false) := by
  induction fs with
  | nil => rfl
  | cons f fs ih =>
    have htl := ih (fun g hg h1 h2 => h g (List.mem_cons_of_mem f hg) h1 h2)
    by_cases hc : f.isFile = true ∧ threshold < f.age
    · have hrf : f.removeFails = false :=
        h f (List.mem_cons_self f fs) hc.1 hc.2
      simp [cleanFolderFiles, hc, hrf, htl, List.filter_cons, hc.1, hc.2]
    · rw [List.filter_cons]
      have hp : (!(f.isFile && decide (threshold < f.age))) = true := by
        rcases Decidable.not_and_iff_or_not.mp hc with h1 | h1 <;> simp [h1]
      simp [cleanFolderFiles, hc, htl, hp]

/-- C7 amended: a janitor cycle in which no delete raises removes exactly
the regular files whose age exceeds the threshold, leaves every file at
or below the threshold, and skips missing directories; and when a delete
does raise inside a directory, the rest of that cycle (later files and
later directories) is left untouched, though the cycle function still
returns, so the periodic loop survives to its next round. -/
theorem janitor_cycle_semantics (threshold : Int)
    (dirs : List (Option (List DirEntry)))
    (h : ∀ d ∈ dirs, ∀ f ∈ d.getD [],
        f.isFile = true → threshold < f.age → f.removeFails = false) :
    clean_old_files_cycle threshold dirs =
      dirs.map (Option.map (List.filter
        (fun f => !(f.isFile && decide (threshold < f.age))))) ∧
    (∀ l rest, (cleanFolderFiles threshold l).2 = true →
      clean_old_files_cycle threshold (some l :: rest) =
        some (cleanFolderFiles threshold l).1 :: rest) := by
  constructor
  · induction dirs with
    | nil => rfl
    | cons d ds ih =>
      have htl := ih (fun fs hfs => h fs (List.mem_cons_of_mem d hfs))
      cases d with
      | none => simp [clean_old_files_cycle, htl]
      | some l =>
        have hfold := cleanFolderFiles_no_error threshold l
          (h (some l) (List.mem_cons_self _ ds))
        simp [clean_old_files_cycle, hfold, htl]
  · intro l rest hab
    simp [clean_old_files_cycle, hab]

theorem janitor_cycle_semantics_witness :
    clean_old_files_cycle MAX_FILE_AGE [none, some [jYoung, jOldOk]] =
      [none, some [jYoung]] ∧
    clean_old_files_cycle MAX_FILE_AGE [some [jOldFailing], some [jOldOk]] =
      [some [jOldFailing], some [jOldOk]] := by
  constructor
  · have h := (janitor_cycle_semantics MAX_FILE_AGE [none, some [jYoung, jOldOk]]
      (by decide)).1
    rw [h]
    decide
  · have h := (janitor_cycle_semantics MAX_FILE_AGE [] (by decide)).2
      [jOldFailing] [some [jOldOk]] (by decide)
    rw [h]
    decide

/-! ## Title derivation claims -/

/-- The last element of a list is a member. -/
theorem mem_of_getLast?_eq (l : List Char) (a : Char) (h : l.getLast? = some a) :
    a ∈ l := by
  obtain ⟨hne, hx⟩ := List.mem_getLast?_eq_getLast h
  exact hx ▸ List.getLast_mem hne

/-- Identity: `pyStrip` is the identity on a string with clean ends. -/
theorem pyStrip_eq_self (l : List Char)
    (h1 : (l.head?.all fun c => !c.isWhitespace) = true)
    (h2 : (l.getLast?.all fun c => !c.isWhitespace) = true) :
    pyStrip l = l := by
  unfold pyStrip
  rw [dropWhile_eq_self_of_head _ _ h1]
  rw [dropWhile_eq_self_of_head _ _ (by rw [List.head?_reverse]; exact h2)]
  exact List.reverse_reverse l

/-- C5 counterexample: a resolved title of `"???"` is present, so the
orchestrator applies no fallback; sanitization yields the empty string
and the derived filename stem has an empty title component
(`"_20240101120000"`). -/
theorem empty_title_no_fallback_cex :
    infoAllIllegal.title? = some ['?', '?', '?'] ∧
    video_title_of infoAllIllegal ts0 = [] ∧
    filename_prefix_of infoAllIllegal ts0 = '_' :: ts0 := by
  refine ⟨rfl, by decide, by decide⟩

/-- C5 amended: the timestamp placeholder `f'video_{timestamp}'` is the
`dict.get` default, used only when the provider returns no `'title'` key
at all; when a title is present it is sanitized with no emptiness guard.
When the title is absent and the timestamp contains no illegal and no
whitespace characters, the placeholder survives sanitization intact (in
particular it is nonempty). -/
theorem title_fallback_only_when_absent (fs : List Fmt) (tu ts t : List Char)
    (hts : ∀ c ∈ ts, isIllegalChar c = false ∧ c.isWhitespace = false) :
    video_title_of ⟨none, fs, tu⟩ ts = ['v', 'i', 'd', 'e', 'o', '_'] ++ ts ∧
    video_title_of ⟨some t, fs, tu⟩ ts = sanitize_filename t := by
  refine ⟨?_, rfl⟩
  show sanitize_filename (['v', 'i', 'd', 'e', 'o', '_'] ++ ts) =
    ['v', 'i', 'd', 'e', 'o', '_'] ++ ts
  unfold sanitize_filename
  have hfilter : (['v', 'i', 'd', 'e', 'o', '_'] ++ ts).filter
      (fun c => !(isIllegalChar c)) = ['v', 'i', 'd', 'e', 'o', '_'] ++ ts := by
    refine List.filter_eq_self.mpr ?_
    intro a ha
    rcases List.mem_append.mp ha with hm | hm
    · fin_cases hm <;> decide
    · simp [(hts a hm).1]
  rw [hfilter]
  refine pyStrip_eq_self _ rfl ?_
  cases hts' : ts.getLast? with
  | none =>
    have : ts = [] := List.getLast?_eq_none_iff.mp hts'
    subst this
    decide
  | some c =>
    have hlast : (['v', 'i', 'd', 'e', 'o', '_'] ++ ts).getLast? = some c := by
      have hne : ts ≠ [] := by
        intro hnil
        rw [hnil] at hts'
        exact Option.noConfusion hts'
      rw [List.getLast?_append_of_ne_nil _ hne]
      exact hts'
    rw [hlast]
    simp [(hts c (mem_of_getLast?_eq ts c hts')).2]

theorem title_fallback_only_when_absent_witness :
    video_title_of ⟨none, [], []⟩ ts0 = ['v', 'i', 'd', 'e', 'o', '_'] ++ ts0 ∧
    video_title_of ⟨some ['a'], [], []⟩ ts0 = sanitize_filename ['a'] :=
  ⟨(title_fallback_only_when_absent [] [] ts0 ['a'] (by decide)).1,
    (title_fallback_only_when_absent [] [] ts0 ['a'] (by decide)).2⟩

/-! ## Temp-path uniqueness claims -/

/-- C3 counterexample: two distinct concurrent runs for the identical
source URL submitted within the same second derive — and actually write —
the very same temp video path and the very same temp audio path: the
derivation depends only on sanitized title, second-granularity timestamp
and container extension, all equal here. -/
theorem temp_path_collision_cex :
    runA ≠ runB ∧
    Ev.created (temp_video_path_for (filename_prefix_of cexInfo ts0) fmt720.ext)
        ∈ (index runA).2 ∧
    Ev.created (temp_video_path_for (filename_prefix_of cexInfo ts0) fmt720.ext)
        ∈ (index runB).2 ∧
    Ev.created (temp_audio_path_for (filename_prefix_of cexInfo ts0) fmt44k.ext)
        ∈ (index runA).2 ∧
    Ev.created (temp_audio_path_for (filename_prefix_of cexInfo ts0) fmt44k.ext)
        ∈ (index runB).2 := by
  refine ⟨by decide, by decide, by decide, by decide, by decide⟩

/-- C3 amended: the temp paths of two runs are distinct whenever their
title components agree and their timestamp strings differ (they always
have equal length, `"%Y%m%d%H%M%S"` being fixed-width), i.e. whenever the
runs start in different seconds; runs of the same title in the same
second collide, as the counterexample shows. -/
theorem temp_paths_distinct_when_timestamps_differ
    (title ts1 ts2 e1 e2 : List Char)
    (hlen : ts1.length = ts2.length) (hne : ts1 ≠ ts2) :
    temp_video_path_for (title ++ '_' :: ts1) e1 ≠
      temp_video_path_for (title ++ '_' :: ts2) e2 ∧
    temp_audio_path_for (title ++ '_' :: ts1) e1 ≠
      temp_audio_path_for (title ++ '_' :: ts2) e2 := by
  constructor <;>
  · intro h
    apply hne
    simp only [temp_video_path_for, temp_audio_path_for, pathJoin,
      List.append_assoc, List.cons_append] at h
    have h2 := List.append_cancel_left h
    injection h2 with _ h3
    have h4 := List.append_cancel_left h3
    injection h4 with _ h5
    exact (List.append_inj h5 hlen).1

theorem temp_paths_distinct_witness :
    temp_video_path_for (['a'] ++ '_' :: ['1']) ['m'] ≠
      temp_video_path_for (['a'] ++ '_' :: ['2']) ['m'] :=
  (temp_paths_distinct_when_timestamps_differ ['a'] ['1'] ['2'] ['m'] ['m']
    rfl (by decide)).1

/-! ## Final-output visibility claims -/

/-- No path under `temp/` equals a path under `downloads/`. -/
theorem temp_ne_download_path (x y : List Char) :
    pathJoin TEMP_FOLDER x ≠ pathJoin DOWNLOAD_FOLDER y := by
  intro h
  simp [pathJoin, TEMP_FOLDER, DOWNLOAD_FOLDER] at h

/-- Symmetric orientation of `temp_ne_download_path`. -/
theorem download_ne_temp_path (x y : List Char) :
    pathJoin DOWNLOAD_FOLDER x ≠ pathJoin TEMP_FOLDER y :=
  fun h => temp_ne_download_path y x h.symm

/-- The final `.mp4` path never equals the `_thumb.jpg` path of the same
run. -/
theorem final_ne_thumb (info : ResolvedInfo) (ts : List Char) :
    final_video_path_of info ts ≠ thumb_path_of info ts := by
  intro h
  unfold final_video_path_of thumb_path_of pathJoin final_video_filename_of at h
  have h2 := List.append_cancel_left h
  injection h2 with _ h3
  have h4 := List.append_cancel_left h3
  exact absurd h4 (by decide)

/-- The final `.mp4` path never equals a temp video path. -/
theorem final_ne_temp_video (info : ResolvedInfo) (ts stem e : List Char) :
    final_video_path_of info ts ≠ temp_video_path_for stem e :=
  fun h => download_ne_temp_path (final_video_filename_of info ts)
    (stem ++ ['_', 'v', 'i', 'd', 'e', 'o', '.'] ++ e) h

/-- The final `.mp4` path never equals a temp audio path. -/
theorem final_ne_temp_audio (info : ResolvedInfo) (ts stem e : List Char) :
    final_video_path_of info ts ≠ temp_audio_path_for stem e :=
  fun h => download_ne_temp_path (final_video_filename_of info ts)
    (stem ++ ['_', 'a', 'u', 'd', 'i', 'o', '.'] ++ e) h

/-- C4 counterexample: a run whose downloads succeed but whose merge tool
exits nonzero ends in the merge-failure error, yet a file was created
under the final output name — `index` passes `final_video_path` straight
to the tool as its output argument, so the file appears during the merge,
not after it succeeds. -/
theorem final_file_on_failed_merge_cex :
    (index runB).1 = Except.error JobErr.mergeFailed ∧
    Ev.created (final_video_path_of cexInfo ts0) ∈ (index runB).2 := by
  refine ⟨rfl, by decide⟩

/-- C4 amended: a file is created under the final output name exactly
when the merge tool is invoked (the orchestrator hands the tool the final
path directly; there is no separate temp-then-rename step).  Runs failing
at resolution, selection or either download leave no file under the final
name, but a run whose merge fails has one. -/
theorem final_file_created_iff_merge_invoked (env : JobEnv) (info : ResolvedInfo)
    (h : env.info = some info) :
    (Ev.created (final_video_path_of info env.timestamp) ∈ (index env).2 ↔
      Ev.mergeToolInvoked ∈ (index env).2) := by
  rcases env with ⟨einfo, ts, tok, vok, aok, fexit⟩
  dsimp only at h ⊢
  subst h
  simp only [index]
  cases hsv : select_video_format (info.formats.filter isPureVideo) with
  | none =>
    cases hsa : select_audio_format (info.formats.filter isPureAudio) <;>
      by_cases ht : info.thumbnail_url ≠ [] ∧ tok = true <;>
        simp [ht, final_ne_thumb]
  | some vf =>
    cases hsa : select_audio_format (info.formats.filter isPureAudio) with
    | none =>
      by_cases ht : info.thumbnail_url ≠ [] ∧ tok = true <;>
        simp [ht, final_ne_thumb]
    | some af =>
      cases vok <;> cases aok <;> by_cases hex : fexit ≠ 0 <;>
        by_cases ht : info.thumbnail_url ≠ [] ∧ tok = true <;>
          simp [ht, hex, final_ne_thumb, final_ne_temp_video, final_ne_temp_audio]

theorem final_file_created_iff_merge_invoked_witness :
    Ev.created (final_video_path_of cexInfo ts0) ∈ (index runA).2 ↔
      Ev.mergeToolInvoked ∈ (index runA).2 :=
  final_file_created_iff_merge_invoked runA cexInfo rfl

/-! ## Temp-file retention on failure (C10) -/

/-- C10: per-run temp cleanup happens only after a successful merge.  Any
`os.remove` of the run implies the run ended in success; and a run whose
merge fails still has both temp files written and never removed by the
run itself (they wait for the janitor). -/
theorem temp_cleanup_only_after_merge_success (env : JobEnv) (info : ResolvedInfo)
    (vf af : Fmt) (h : env.info = some info)
    (hsv : select_video_format (info.formats.filter isPureVideo) = some vf)
    (hsa : select_audio_format (info.formats.filter isPureAudio) = some af) :
    (∀ p, Ev.removed p ∈ (index env).2 → ∃ out, (index env).1 = Except.ok out) ∧
    ((index env).1 = Except.error JobErr.mergeFailed →
      Ev.created (temp_video_path_for (filename_prefix_of info env.timestamp) vf.ext)
        ∈ (index env).2 ∧
      Ev.created (temp_audio_path_for (filename_prefix_of info env.timestamp) af.ext)
        ∈ (index env).2) := by
  rcases env with ⟨einfo, ts, tok, vok, aok, fexit⟩
  dsimp only at h ⊢
  subst h
  simp only [index, hsv, hsa]
  cases vok <;> cases aok <;> by_cases hex : fexit ≠ 0 <;>
    by_cases ht : info.thumbnail_url ≠ [] ∧ tok = true <;>
      simp [ht, hex]

theorem temp_cleanup_only_after_merge_success_witness :
    (Ev.created (temp_video_path_for (filename_prefix_of cexInfo ts0) fmt720.ext)
        ∈ (index runB).2 ∧
      Ev.created (temp_audio_path_for (filename_prefix_of cexInfo ts0) fmt44k.ext)
        ∈ (index runB).2) ∧
    (∃ out, (index runA).1 = Except.ok out) :=
  ⟨(temp_cleanup_only_after_merge_success runB cexInfo fmt720 fmt44k rfl
      (by decide) (by decide)).2 rfl,
    (temp_cleanup_only_after_merge_success runA cexInfo fmt720 fmt44k rfl
      (by decide) (by decide)).1
      (temp_video_path_for (filename_prefix_of cexInfo ts0) fmt720.ext)
      (by decide)⟩
